import Mathlib

/-!
# Verification of the WowUp folder-scanning core

Shallow embedding of the scanning subsystem of the WowUp repository
(`wowup-electron`).  The IPC handler layer (the main-process handler
registration source) is embedded from the source file directly; the folder
scanners (`CurseFolderScanner`, `WowUpFolderScanner`), the TOC reader and the
content normalizer are not part of the provided sources, so they are modelled
from the specification, as indicated on each definition.
-/

/-! ## Batch scan handlers (embedded from the IPC handler source)

The `CURSE_GET_SCAN_RESULTS` handler runs
`Promise.all(filePaths.map(folder => limit(() => new CurseFolderScanner().scanFolder(folder))))`
inside a try/catch that logs and rethrows; the `WOWUP_GET_SCAN_RESULTS`
handler is identical but without the try/catch (which is observationally the
identity on the result).  `Promise.all` resolves with the list of results in
input order when every task resolves, and rejects with a task's rejection
reason as soon as any task rejects.  We model a per-folder scan as a function
`FolderPath → Except ε α` (the task either resolves with a result or rejects
with an error) and `Promise.all` as the short-circuiting collection below;
`p-limit` does not change which tasks run or the order of the collected
results, only when they start, so it is invisible at this level (its
concurrency ceiling is modelled separately further down). -/

abbrev FolderPath := String

/-- `Promise.all` over already-determined task outcomes: resolves with all
results in order iff every task resolves, otherwise rejects with a failing
task's error. -/
def promiseAll {ε α : Type} : List (Except ε α) → Except ε (List α)
  | [] => Except.ok []
  | Except.error e :: _ => Except.error e
  | Except.ok a :: ts =>
    match promiseAll ts with
    | Except.error e => Except.error e
    | Except.ok rs => Except.ok (a :: rs)

/-- The `CURSE_GET_SCAN_RESULTS` handler body: map each input folder path to a
fresh scanner task and await them all with `Promise.all`; the surrounding
try/catch logs and rethrows, so it is the identity on the outcome. -/
def curseGetScanResults {ε α : Type} (scanFolder : FolderPath → Except ε α)
    (filePaths : List FolderPath) : Except ε (List α) :=
  promiseAll (filePaths.map scanFolder)

/-- The `WOWUP_GET_SCAN_RESULTS` handler body: identical batch structure
(`pLimit(2)` + `Promise.all`), scanner constructed per folder. -/
def wowupGetScanResults {ε α : Type} (scanFolder : FolderPath → Except ε α)
    (filePaths : List FolderPath) : Except ε (List α) :=
  promiseAll (filePaths.map scanFolder)

/-! ## `PATH_EXISTS_CHANNEL` handler (embedded from the IPC handler source)

The handler awaits `fs.access(filePath)`; on success it returns `true`; any
thrown error `e` is caught, logged when `e.code !== "ENOENT"`, and mapped to
`false`.  The probe outcome is modelled as `Except String Unit` where the
`String` is the error code (`"ENOENT"`, `"EACCES"`, ...). -/

/-- The `PATH_EXISTS_CHANNEL` handler body applied to the outcome of the
`fs.access` probe. -/
def pathExistsHandler (probe : Except String Unit) : Bool :=
  match probe with
  | Except.ok _ => true
  | Except.error _ => false

/-! ### Concrete scan functions used as counterexample and witness inputs -/

/-- A concrete per-folder curse scan outcome: folder `"addonA"` fails,
every other folder succeeds with result `7`. -/
def exCurseScan : FolderPath → Except String Nat := fun p =>
  if p = "addonA" then Except.error "scan failed" else Except.ok 7

/-- A concrete per-folder wowup scan outcome: folder `"y"` fails with an I/O
error, every other folder succeeds with result `5`. -/
def exWowScan : FolderPath → Except String Nat := fun p =>
  if p = "y" then Except.error "io error" else Except.ok 5

/-- A concrete per-folder scan that succeeds on every folder with result `1`. -/
def exOkScan : FolderPath → Except String Nat := fun _ => Except.ok 1

/-! ## On-disk content model

Modelled from the spec: the scanners are not in the provided sources, so a
folder is modelled as its name plus a list of files; each file carries its
relative path, its content (readable text, or unreadable to model an I/O
failure on open/read), and a modification timestamp that identity must never
depend on. -/

/-- Modelled from the spec: the outcome of reading one file — its text
content, or an I/O failure for a present-but-unreadable file. -/
inductive FileData : Type
  | readable (text : List Char)
  | unreadable
deriving DecidableEq

/-- Modelled from the spec: one file inside an add-on folder. -/
structure SrcFile : Type where
  path : List Char
  data : FileData
  mtime : Nat
deriving DecidableEq

/-- Modelled from the spec: one candidate add-on folder — its own name and
the files found by recursive enumeration. -/
structure Folder : Type where
  name : List Char
  files : List SrcFile
deriving DecidableEq

/-- Modelled from the spec: the per-folder error kinds of the core. -/
inductive ScanError : Type
  | notFound
  | ioError
  | parseError
deriving DecidableEq

/-- The part of a file that contributes to identity: relative path and
content, with the modification timestamp projected away. -/
def fileIdentity (f : SrcFile) : List Char × FileData :=
  (f.path, f.data)

/-! ## Normalizer

Modelled from the spec: given raw text, strip the single-line comment syntax
of the add-on scripting dialect (Lua's `--`, running to end of line) and
strip all whitespace characters, preserving every other character in order.
Block comments are elided from the model; they behave like longer single-line
comments for every property below. -/

/-- Modelled from the spec: the whitespace characters stripped by the
Normalizer. -/
def isWhitespaceChar (c : Char) : Bool :=
  c = ' ' || c = '\t' || c = '\n' || c = '\r'

/-- Remove every whitespace character from a text buffer. -/
def stripWhitespace (s : List Char) : List Char :=
  s.filter (fun c => !(isWhitespaceChar c))

/-- One-pass comment remover: in normal mode a `--` switches to comment mode;
comment mode discards characters up to (but not including) the newline. -/
def stripCommentsGo : Bool → List Char → List Char
  | _, [] => []
  | true, c :: rest =>
    if c = '\n' then '\n' :: stripCommentsGo false rest else stripCommentsGo true rest
  | false, [c] => [c]
  | false, c :: c2 :: rest2 =>
    if c = '-' ∧ c2 = '-' then stripCommentsGo true rest2
    else c :: stripCommentsGo false (c2 :: rest2)

/-- Modelled from the spec: remove single-line comments from a text buffer. -/
def stripComments (s : List Char) : List Char :=
  stripCommentsGo false s

/-- Modelled from the spec: the Normalizer — comments removed, then all
whitespace removed (the spec's own example normalizes
`"-- comment\nlocal x = 1"` to `"localx=1"`, fixing this order). -/
def normalizeText (s : List Char) : List Char :=
  stripWhitespace (stripComments s)

/-- Does the buffer contain an occurrence of the comment-start token `--`? -/
def hasCommentStart : List Char → Bool
  | [] => false
  | [_] => false
  | c :: c2 :: rest2 => (decide (c = '-') && decide (c2 = '-')) || hasCommentStart (c2 :: rest2)

/-! ## FingerprintHasher

Modelled from the spec: `hashBuffer` is a deterministic 32-bit hash of a
buffer and `hashFolder` combines an already-sorted hash sequence
deterministically.  The exact constants are an external catalog contract not
present in the provided sources; fixed polynomial hashes mod `2^32` stand in
for them — every claim below depends only on determinism, never on the
constants. -/

/-- Modelled from the spec: deterministic 32-bit content hash of a buffer. -/
def hashBuffer (s : List Char) : Nat :=
  s.foldl (fun h c => (h * 31 + c.toNat) % 4294967296) 5381

/-- Modelled from the spec: deterministic combination of an already-sorted
sequence of file hashes; sorting is the caller's responsibility. -/
def hashFolder (sortedHashes : List Nat) : Nat :=
  sortedHashes.foldl (fun h x => (h * 33 + x) % 4294967296) 17

/-- Ascending numeric sort of the per-file hashes. -/
def sortHashes (l : List Nat) : List Nat :=
  List.insertionSort (· ≤ ·) l

/-! ## ContentFile filtering -/

/-- Modelled from the spec: the fixed extension allow-list selecting the
files that contribute to identity, evaluated case-insensitively. -/
def allowedExtensions : List (List Char) :=
  [['.', 'l', 'u', 'a'], ['.', 't', 'o', 'c'], ['.', 'x', 'm', 'l']]

/-- Lower-case a path for case-insensitive comparisons. -/
def lowerStr (s : List Char) : List Char :=
  s.map Char.toLower

/-- Modelled from the spec: does a relative path carry an allow-listed
extension (case-insensitively)? -/
def hasAllowedExt (path : List Char) : Bool :=
  allowedExtensions.any (fun ext => ext.isSuffixOf (lowerStr path))

/-- Modelled from the spec: the ContentFiles of a folder — the enumerated
files filtered by the extension allow-list. -/
def contentFiles (files : List SrcFile) : List SrcFile :=
  files.filter (fun f => hasAllowedExt f.path)

/-- Modelled from the spec: the FileFingerprint of one ContentFile — the
hash of its normalized content; an unreadable file aborts the folder's scan
with an I/O error rather than being silently skipped. -/
def fileFingerprint (f : SrcFile) : Except ScanError Nat :=
  match f.data with
  | FileData.readable d => Except.ok (hashBuffer (normalizeText d))
  | FileData.unreadable => Except.error ScanError.ioError

/-- Fingerprint every file in order, short-circuiting on the first
unreadable file. -/
def mapFingerprints : List SrcFile → Except ScanError (List Nat)
  | [] => Except.ok []
  | f :: fs =>
    match fileFingerprint f with
    | Except.error e => Except.error e
    | Except.ok h =>
      match mapFingerprints fs with
      | Except.error e => Except.error e
      | Except.ok hs => Except.ok (h :: hs)

/-- The (unsorted) FileFingerprint hashes of a folder's ContentFiles. -/
def folderFileHashes (files : List SrcFile) : Except ScanError (List Nat) :=
  mapFingerprints (contentFiles files)

/-- Modelled from the spec: the FolderFingerprint — the folder hash of the
ascending-sorted FileFingerprint hashes of the allow-list-filtered files. -/
def folderFingerprint (files : List SrcFile) : Except ScanError Nat :=
  match folderFileHashes files with
  | Except.error e => Except.error e
  | Except.ok hs => Except.ok (hashFolder (sortHashes hs))

/-- Is the file's content readable? -/
def isReadable (f : SrcFile) : Bool :=
  match f.data with
  | FileData.readable _ => true
  | FileData.unreadable => false

/-- The content hash of a readable file (defaulting on unreadable ones;
only ever used under an all-readable guard). -/
def readableHash (f : SrcFile) : Nat :=
  match f.data with
  | FileData.readable d => hashBuffer (normalizeText d)
  | FileData.unreadable => 0

/-! ## TocReader

Modelled from the spec: the descriptor file is named after the folder plus
the fixed `.toc` extension, compared case-insensitively (locale-suffixed
variants are elided from the model; none of the claims concern them).  A
missing descriptor is the explicit absence value, never an error; a
present-but-unreadable descriptor is an I/O error.  The parse is
line-oriented: `##`-prefixed lines are key/value directives, other
`#`-prefixed lines are comments, remaining non-empty lines are declared file
paths. -/

/-- The fixed descriptor-file extension. -/
def tocExtension : List Char :=
  ['.', 't', 'o', 'c']

/-- Modelled from the spec: a parsed descriptor manifest. -/
structure TocDescriptor : Type where
  directives : List (List Char × List Char)
  declaredFiles : List (List Char)
deriving DecidableEq

/-- Modelled from the spec: the TocReader's outcome — a parsed descriptor or
the explicit absence value. -/
inductive TocOutcome : Type
  | absent
  | present (d : TocDescriptor)
deriving DecidableEq

/-- Trim whitespace from both ends of a line. -/
def stripWhitespaceEnds (s : List Char) : List Char :=
  ((s.dropWhile isWhitespaceChar).reverse.dropWhile isWhitespaceChar).reverse

/-- Is this line a key/value directive line (starts with `##`)? -/
def isDirectiveLine : List Char → Bool
  | '#' :: '#' :: _ => true
  | _ => false

/-- Is this line a comment line (starts with `#` but is not a directive)? -/
def isCommentLine : List Char → Bool
  | '#' :: '#' :: _ => false
  | '#' :: _ => true
  | _ => false

/-- Parse one directive line `## Key: Value` into its key/value pair. -/
def parseDirective (line : List Char) : List Char × List Char :=
  let body := line.drop 2
  (body.takeWhile (fun c => c ≠ ':'), (body.dropWhile (fun c => c ≠ ':')).drop 1)

/-- Modelled from the spec: line-oriented parse of descriptor text. -/
def parseToc (text : List Char) : TocDescriptor :=
  let lines := (text.splitOn '\n').map stripWhitespaceEnds
  let nonEmpty := lines.filter (fun l => !l.isEmpty)
  { directives := (nonEmpty.filter isDirectiveLine).map parseDirective,
    declaredFiles := nonEmpty.filter (fun l => !isDirectiveLine l && !isCommentLine l) }

/-- Locate the folder's descriptor file: name equal (case-insensitively) to
the folder name plus the fixed extension. -/
def findTocFile (folder : Folder) : Option SrcFile :=
  folder.files.find? (fun f => lowerStr f.path == lowerStr folder.name ++ tocExtension)

/-- Modelled from the spec: the TocReader — absence value for a missing
descriptor file, I/O error for a present-but-unreadable one, parsed
descriptor otherwise. -/
def tocRead (folder : Folder) : Except ScanError TocOutcome :=
  match findTocFile folder with
  | none => Except.ok TocOutcome.absent
  | some f =>
    match f.data with
    | FileData.unreadable => Except.error ScanError.ioError
    | FileData.readable d => Except.ok (TocOutcome.present (parseToc d))

/-! ## CatalogFolderScanner -/

/-- Modelled from the spec: one catalog scan result — folder name, primary
FolderFingerprint, optional descriptor, and the sorted FileFingerprint hashes
used. -/
structure CatalogScanResult : Type where
  folderName : List Char
  fingerprint : Nat
  toc : TocOutcome
  fileFingerprints : List Nat
deriving DecidableEq

/-- Modelled from the spec: `CatalogFolderScanner.scanFolder` — enumerate and
filter the folder's files, fingerprint them, sort the hashes ascending, hash
the folder, and attach the optional descriptor. -/
def scanCatalogFolder (folder : Folder) : Except ScanError CatalogScanResult :=
  match folderFileHashes folder.files with
  | Except.error e => Except.error e
  | Except.ok hashes =>
    match tocRead folder with
    | Except.error e => Except.error e
    | Except.ok toc =>
      Except.ok
        { folderName := folder.name,
          fingerprint := hashFolder (sortHashes hashes),
          toc := toc,
          fileFingerprints := sortHashes hashes }

/-! ## SelfDescribingFolderScanner

Modelled from the spec: a single fixed-named sidecar metadata file at the
folder root; absence is the non-error "no result" outcome, an unreadable
sidecar is an I/O error, a malformed sidecar is a parse error.  The sidecar's
structured content is modelled as newline-separated `key=value` pairs; a
non-empty line without `=` makes the file malformed. -/

/-- The fixed sidecar metadata file name. -/
def sidecarFileName : List Char :=
  ['.', 'w', 'o', 'w', 'u', 'p']

/-- Modelled from the spec: the sidecar's structured metadata. -/
structure SidecarMeta : Type where
  fields : List (List Char × List Char)
deriving DecidableEq

/-- Modelled from the spec: the self-describing scan outcome — the explicit
absence value or the parsed sidecar metadata. -/
inductive SidecarOutcome : Type
  | absent
  | present (m : SidecarMeta)
deriving DecidableEq

/-- Modelled from the spec: basic structured parse of sidecar text; fails on
any non-empty line without a `=` separator. -/
def parseSidecar (text : List Char) : Option SidecarMeta :=
  let lines := (text.splitOn '\n').filter (fun l => !l.isEmpty)
  if lines.all (fun l => l.contains '=') then
    some
      { fields :=
          lines.map (fun l =>
            (l.takeWhile (fun c => c ≠ '='), (l.dropWhile (fun c => c ≠ '=')).drop 1)) }
  else
    none

/-- Locate the folder's sidecar metadata file (exact fixed name). -/
def findSidecarFile (folder : Folder) : Option SrcFile :=
  folder.files.find? (fun f => f.path == sidecarFileName)

/-- Modelled from the spec: `SelfDescribingFolderScanner.scanFolder` —
absence for a missing sidecar, I/O error for an unreadable one, parse error
for a malformed one, parsed metadata otherwise. -/
def scanSelfDescribing (folder : Folder) : Except ScanError SidecarOutcome :=
  match findSidecarFile folder with
  | none => Except.ok SidecarOutcome.absent
  | some f =>
    match f.data with
    | FileData.unreadable => Except.error ScanError.ioError
    | FileData.readable d =>
      match parseSidecar d with
      | some m => Except.ok (SidecarOutcome.present m)
      | none => Except.error ScanError.parseError

/-! ## Bounded concurrency of the batch handlers

Both scan handlers wrap every per-folder task in a `pLimit(2)` limiter:
a wrapped task only starts running when fewer than `2` wrapped tasks are
active, otherwise it waits in the limiter's queue.  The limiter is modelled
as a state machine counting pending, active and finished tasks; a task can
start only while a slot is free, and finishing a task frees its slot. -/

/-- The concurrency ceiling both scan handlers pass to `pLimit`. -/
def scanConcurrencyLimit : Nat := 2

/-- State of the limiter: tasks still queued, tasks currently running, and
tasks completed. -/
structure PoolState : Type where
  pending : Nat
  active : Nat
  done : Nat
deriving DecidableEq

/-- The initial limiter state for a batch of `n` folder scans. -/
def initPool (n : Nat) : PoolState :=
  { pending := n, active := 0, done := 0 }

/-- One scheduler transition of the `pLimit` model: start a queued task when
a slot is free, or finish a running task. -/
inductive PoolStep (limit : Nat) : PoolState → PoolState → Prop
  | start (s : PoolState) (hp : 0 < s.pending) (ha : s.active < limit) :
      PoolStep limit s { pending := s.pending - 1, active := s.active + 1, done := s.done }
  | finish (s : PoolState) (ha : 0 < s.active) :
      PoolStep limit s { pending := s.pending, active := s.active - 1, done := s.done + 1 }

/-- Reachability under the limiter's scheduler transitions. -/
inductive PoolReachable (limit : Nat) : PoolState → PoolState → Prop
  | refl (s : PoolState) : PoolReachable limit s s
  | tail {s t u : PoolState} :
      PoolReachable limit s t → PoolStep limit t u → PoolReachable limit s u

/-! ### Concrete folders used as witness and counterexample inputs -/

/-- A folder with one disallowed file and nothing else: no ContentFiles, no
descriptor, no sidecar. -/
def exEmptyFolder : Folder :=
  { name := ['F', 'o', 'o'],
    files := [{ path := ['r', 'e', 'a', 'd', 'm', 'e', '.', 't', 'x', 't'],
                data := FileData.readable ['h', 'i'],
                mtime := 3 }] }

/-- A folder whose sidecar metadata file exists but is malformed (a
non-empty line without a `=`). -/
def exMalformedSidecarFolder : Folder :=
  { name := ['B', 'a', 'r'],
    files := [{ path := sidecarFileName,
                data := FileData.readable ['o', 'o', 'p', 's'],
                mtime := 0 }] }

/-- A folder whose descriptor file is present but unreadable. -/
def exUnreadableTocFolder : Folder :=
  { name := ['B', 'a', 'z'],
    files := [{ path := ['b', 'a', 'z', '.', 't', 'o', 'c'],
                data := FileData.unreadable,
                mtime := 0 }] }

/-- Two readable content files, used to exhibit permutation invariance. -/
def exFileA : SrcFile :=
  { path := ['a', '.', 'l', 'u', 'a'], data := FileData.readable ['x'], mtime := 1 }

/-- Second concrete content file. -/
def exFileB : SrcFile :=
  { path := ['b', '.', 'l', 'u', 'a'], data := FileData.readable ['y'], mtime := 2 }

/-- `exFileA` with its modification timestamp changed and nothing else. -/
def exFileATouched : SrcFile :=
  { path := exFileA.path, data := exFileA.data, mtime := 99 }

/-! ## Helper lemmas -/

theorem promiseAll_isOk_iff {ε α : Type} (ts : List (Except ε α)) :
    (promiseAll ts).isOk = ts.all (fun t => t.isOk) := by
  induction ts with
  | nil => rfl
  | cons t ts ih =>
    cases t with
    | error e => simp [promiseAll, Except.isOk, Except.toBool]
    | ok a =>
      cases h : promiseAll ts with
      | error e =>
        simp only [promiseAll, h, List.all_cons]
        rw [h] at ih
        simp only [Except.isOk, Except.toBool] at ih ⊢
        rw [← ih]
        rfl
      | ok rs =>
        simp only [promiseAll, h, List.all_cons]
        rw [h] at ih
        simp only [Except.isOk, Except.toBool] at ih ⊢
        rw [← ih]
        rfl

theorem promiseAll_ok_spec {ε α : Type} (ts : List (Except ε α)) (rs : List α)
    (h : promiseAll ts = Except.ok rs) :
    rs.length = ts.length ∧
      ∀ i (hi : i < ts.length) (hj : i < rs.length),
        ts.get ⟨i, hi⟩ = Except.ok (rs.get ⟨i, hj⟩) := by
  induction ts generalizing rs with
  | nil =>
    simp only [promiseAll] at h
    cases h
    exact ⟨rfl, fun i hi => absurd hi (Nat.not_lt_zero i)⟩
  | cons t ts ih =>
    cases t with
    | error e => simp [promiseAll] at h
    | ok a =>
      simp only [promiseAll] at h
      cases hrec : promiseAll ts with
      | error e => rw [hrec] at h; cases h
      | ok rs0 =>
        rw [hrec] at h
        cases h
        obtain ⟨hlen, hget⟩ := ih rs0 hrec
        refine ⟨by simp [hlen], ?_⟩
        intro i hi hj
        cases i with
        | zero => rfl
        | succ k =>
          exact hget k (Nat.lt_of_succ_lt_succ hi) (Nat.lt_of_succ_lt_succ hj)

theorem stripWhitespace_idem (l : List Char) :
    stripWhitespace (stripWhitespace l) = stripWhitespace l := by
  unfold stripWhitespace
  rw [List.filter_filter]
  congr 1
  funext c
  cases isWhitespaceChar c <;> rfl

theorem stripCommentsGo_false_eq_self (l : List Char)
    (h : hasCommentStart l = false) : stripCommentsGo false l = l := by
  induction l with
  | nil => rfl
  | cons c rest ih =>
    cases rest with
    | nil => rfl
    | cons c2 rest2 =>
      simp only [hasCommentStart, Bool.or_eq_false_iff] at h
      obtain ⟨h1, h2⟩ := h
      have hcond : ¬(c = '-' ∧ c2 = '-') := by
        intro hp
        rw [hp.1, hp.2] at h1
        simp at h1
      simp only [stripCommentsGo]
      rw [if_neg hcond]
      exact congrArg (c :: ·) (ih h2)

theorem stripComments_eq_self (l : List Char) (h : hasCommentStart l = false) :
    stripComments l = l :=
  stripCommentsGo_false_eq_self l h

theorem sortHashes_perm_eq {l1 l2 : List Nat} (h : l1.Perm l2) :
    sortHashes l1 = sortHashes l2 := by
  unfold sortHashes
  exact List.eq_of_perm_of_sorted
    (((List.perm_insertionSort _ l1).trans h).trans (List.perm_insertionSort _ l2).symm)
    (List.sorted_insertionSort _ l1) (List.sorted_insertionSort _ l2)

theorem mapFingerprints_eq_ite (l : List SrcFile) :
    mapFingerprints l =
      if l.all isReadable then Except.ok (l.map readableHash)
      else Except.error ScanError.ioError := by
  induction l with
  | nil => rfl
  | cons f fs ih =>
    cases hd : f.data with
    | readable d =>
      have hr : isReadable f = true := by simp [isReadable, hd]
      have hh : readableHash f = hashBuffer (normalizeText d) := by simp [readableHash, hd]
      simp only [mapFingerprints, fileFingerprint, hd, ih, List.all_cons, hr, hh,
        Bool.true_and, List.map_cons]
      by_cases hall : fs.all isReadable = true
      · simp [hall]
      · simp [Bool.eq_false_iff.mpr hall]
    | unreadable =>
      have hr : isReadable f = false := by simp [isReadable, hd]
      simp [mapFingerprints, fileFingerprint, hd, List.all_cons, hr]

theorem folderFingerprint_eq_ite (files : List SrcFile) :
    folderFingerprint files =
      if (contentFiles files).all isReadable then
        Except.ok (hashFolder (sortHashes ((contentFiles files).map readableHash)))
      else Except.error ScanError.ioError := by
  unfold folderFingerprint folderFileHashes
  rw [mapFingerprints_eq_ite]
  by_cases hall : (contentFiles files).all isReadable = true
  · simp [hall]
  · simp [Bool.eq_false_iff.mpr hall]

theorem all_map_comp {α β : Type} (f : α → β) (p : β → Bool) (l : List α) :
    (l.map f).all p = l.all (fun a => p (f a)) := by
  induction l with
  | nil => rfl
  | cons a l ih => simp [List.all_cons, ih]

theorem perm_all_eq {α : Type} (p : α → Bool) {l1 l2 : List α} (h : l1.Perm l2) :
    l1.all p = l2.all p := by
  cases hb : l2.all p with
  | true =>
    rw [List.all_eq_true] at hb ⊢
    intro x hx
    exact hb x (h.mem_iff.mp hx)
  | false =>
    rw [List.all_eq_false] at hb ⊢
    obtain ⟨x, hx, hpx⟩ := hb
    exact ⟨x, h.mem_iff.mpr hx, hpx⟩

theorem map_fileIdentity_contentFiles_congr (fs1 fs2 : List SrcFile)
    (h : fs1.map fileIdentity = fs2.map fileIdentity) :
    (contentFiles fs1).map fileIdentity = (contentFiles fs2).map fileIdentity := by
  induction fs1 generalizing fs2 with
  | nil =>
    have h2 : fs2 = [] := by
      cases fs2 with
      | nil => rfl
      | cons g gs => simp at h
    subst h2
    rfl
  | cons f fs ih =>
    cases fs2 with
    | nil => simp at h
    | cons g gs =>
      simp only [List.map_cons, List.cons.injEq] at h
      obtain ⟨hfg, htail⟩ := h
      have hpath : f.path = g.path := congrArg Prod.fst hfg
      simp only [contentFiles, List.filter_cons]
      rw [hpath]
      by_cases hx : hasAllowedExt g.path = true
      · rw [if_pos hx, if_pos hx, List.map_cons, List.map_cons, hfg]
        have := ih gs htail
        simp only [contentFiles] at this
        rw [this]
      · rw [if_neg hx, if_neg hx]
        have := ih gs htail
        simp only [contentFiles] at this
        exact this

theorem map_readableHash_congr (fs1 fs2 : List SrcFile)
    (h : fs1.map fileIdentity = fs2.map fileIdentity) :
    fs1.map readableHash = fs2.map readableHash := by
  induction fs1 generalizing fs2 with
  | nil =>
    have h2 : fs2 = [] := by
      cases fs2 with
      | nil => rfl
      | cons g gs => simp at h
    subst h2
    rfl
  | cons f fs ih =>
    cases fs2 with
    | nil => simp at h
    | cons g gs =>
      simp only [List.map_cons, List.cons.injEq] at h
      obtain ⟨hfg, htail⟩ := h
      have hdata : f.data = g.data := congrArg Prod.snd hfg
      have hhead : readableHash f = readableHash g := by
        unfold readableHash
        rw [hdata]
      rw [List.map_cons, List.map_cons, hhead, ih gs htail]

theorem all_isReadable_congr (fs1 fs2 : List SrcFile)
    (h : fs1.map fileIdentity = fs2.map fileIdentity) :
    fs1.all isReadable = fs2.all isReadable := by
  induction fs1 generalizing fs2 with
  | nil =>
    have h2 : fs2 = [] := by
      cases fs2 with
      | nil => rfl
      | cons g gs => simp at h
    subst h2
    rfl
  | cons f fs ih =>
    cases fs2 with
    | nil => simp at h
    | cons g gs =>
      simp only [List.map_cons, List.cons.injEq] at h
      obtain ⟨hfg, htail⟩ := h
      have hdata : f.data = g.data := congrArg Prod.snd hfg
      have hhead : isReadable f = isReadable g := by
        unfold isReadable
        rw [hdata]
      rw [List.all_cons, List.all_cons, hhead, ih gs htail]

/-! ## Claim theorems -/

/-- Claim C1 (counterexample): in the batch of folders `["addonA", "addonB"]`
where only the scan of `"addonA"` fails, the `CURSE_GET_SCAN_RESULTS` handler
rejects the whole batch with that error instead of producing per-slot
outcomes — the sibling folder's successful result is dropped, contradicting
the claim that one folder's failure never turns into a batch-wide failure. -/
theorem curse_scan_failure_rejects_batch_cex :
    curseGetScanResults exCurseScan ["addonA", "addonB"] =
      Except.error "scan failed" := rfl

/-- Claim C1 (amended): the batch scan resolves (with one result per folder)
if and only if every folder's scan succeeds; a scan failure for any one
folder makes the whole batch fail (`Promise.all` rejection, rethrown by the
handler) — per-folder errors are not captured in per-slot outcomes. -/
theorem curse_scan_batch_ok_iff_all_folders_ok {ε α : Type}
    (scanFolder : FolderPath → Except ε α) (filePaths : List FolderPath) :
    (curseGetScanResults scanFolder filePaths).isOk =
      filePaths.all (fun p => (scanFolder p).isOk) := by
  unfold curseGetScanResults
  rw [promiseAll_isOk_iff, all_map_comp]

/-- Claim C2 (counterexample): for the input list `["x", "y"]` where the scan
of `"y"` fails, the `WOWUP_GET_SCAN_RESULTS` handler returns no sequence of
per-path outcomes at all — it rejects with the error, so there is no
length-2 sequence with an outcome (result or error) in each slot. -/
theorem wowup_scan_failure_drops_sibling_outcomes_cex :
    wowupGetScanResults exWowScan ["x", "y"] = Except.error "io error" := rfl

/-- Claim C2 (amended): when every folder's scan succeeds, the batch
resolves with exactly one result per input path, of the same length as the
input, and the result at position `i` is the scan result of the path at
position `i`; when any folder's scan fails the batch rejects and no
sequence is returned. -/
theorem wowup_scan_ok_batch_one_result_per_input {ε α : Type}
    (scanFolder : FolderPath → Except ε α) (filePaths : List FolderPath)
    (results : List α)
    (h : wowupGetScanResults scanFolder filePaths = Except.ok results) :
    results.length = filePaths.length ∧
      ∀ i (hi : i < filePaths.length) (hj : i < results.length),
        scanFolder (filePaths.get ⟨i, hi⟩) = Except.ok (results.get ⟨i, hj⟩) := by
  obtain ⟨hlen, hget⟩ := promiseAll_ok_spec _ _ h
  rw [List.length_map] at hlen
  refine ⟨hlen, ?_⟩
  intro i hi hj
  have hi2 : i < (filePaths.map scanFolder).length := by
    rw [List.length_map]
    exact hi
  have hmap := hget i hi2 hj
  rw [List.get_map] at hmap
  exact hmap

/-- Claim C2 (witness): a concrete all-successful batch, instantiating
the amended theorem. -/
theorem wowup_scan_ok_batch_one_result_per_input_witness :
    ([1, 1] : List Nat).length = (["a", "b"] : List FolderPath).length :=
  (wowup_scan_ok_batch_one_result_per_input exOkScan ["a", "b"] [1, 1] rfl).1

/-- Claim C3: the FolderFingerprint is a pure function of the folder's
files' identities (relative path and content) — any two file lists that
agree file-by-file on path and content (in particular: two runs over
unchanged content, or the same content with different modification
timestamps or platform metadata) yield the same fingerprint outcome. -/
theorem folderFingerprint_pure_function_of_identity (fs1 fs2 : List SrcFile)
    (h : fs1.map fileIdentity = fs2.map fileIdentity) :
    folderFingerprint fs1 = folderFingerprint fs2 := by
  have hcf := map_fileIdentity_contentFiles_congr fs1 fs2 h
  rw [folderFingerprint_eq_ite, folderFingerprint_eq_ite,
    all_isReadable_congr _ _ hcf, map_readableHash_congr _ _ hcf]

/-- Claim C3 (witness): the same file with two different modification
timestamps fingerprints identically. -/
theorem folderFingerprint_pure_function_of_identity_witness :
    folderFingerprint [exFileA] = folderFingerprint [exFileATouched] :=
  folderFingerprint_pure_function_of_identity [exFileA] [exFileATouched] (by decide)

/-- Claim C4: the FolderFingerprint is computed over the ascending-sorted
sequence of FileFingerprint hashes, so permuting the on-disk order of a
folder's files never changes the scan's fingerprint outcome. -/
theorem folderFingerprint_perm_invariant (fs1 fs2 : List SrcFile)
    (h : fs1.Perm fs2) :
    folderFingerprint fs1 = folderFingerprint fs2 := by
  have hp : (contentFiles fs1).Perm (contentFiles fs2) := h.filter _
  rw [folderFingerprint_eq_ite, folderFingerprint_eq_ite,
    perm_all_eq isReadable hp, sortHashes_perm_eq (hp.map readableHash)]

/-- Claim C4 (witness): swapping two files of a concrete folder leaves its
fingerprint unchanged. -/
theorem folderFingerprint_perm_invariant_witness :
    folderFingerprint [exFileA, exFileB] = folderFingerprint [exFileB, exFileA] :=
  folderFingerprint_perm_invariant [exFileA, exFileB] [exFileB, exFileA] (by decide)

/-- Claim C5 (counterexample): the Normalizer is not idempotent on every
buffer.  On `"- -"` the first pass removes no comment (there is no adjacent
`--`) but whitespace removal creates one, so the first pass yields `"--"`
while the second pass strips it to the empty buffer. -/
theorem normalizeText_not_idempotent_cex :
    normalizeText (normalizeText ['-', ' ', '-']) ≠ normalizeText ['-', ' ', '-'] := by
  decide

/-- Claim C5 (amended): normalization is idempotent on every buffer whose
normalized form contains no comment-start token `--`; in general, stripping
whitespace can join two `-` characters into a new `--`, which a second
normalization pass then strips further. -/
theorem normalizeText_idempotent_without_comment_start (l : List Char)
    (h : hasCommentStart (normalizeText l) = false) :
    normalizeText (normalizeText l) = normalizeText l := by
  unfold normalizeText at h ⊢
  rw [stripComments_eq_self _ h]
  exact stripWhitespace_idem _

/-- Claim C5 (witness): a concrete comment-free, whitespace-carrying buffer
on which normalization is idempotent. -/
theorem normalizeText_idempotent_without_comment_start_witness :
    normalizeText (normalizeText ['l', 'o', 'c', 'a', 'l', ' ', 'x', ' ', '=', ' ', '1']) =
      normalizeText ['l', 'o', 'c', 'a', 'l', ' ', 'x', ' ', '=', ' ', '1'] :=
  normalizeText_idempotent_without_comment_start
    ['l', 'o', 'c', 'a', 'l', ' ', 'x', ' ', '=', ' ', '1'] (by decide)

/-- Claim C6: scanning a folder with no ContentFiles succeeds — it returns
the fixed fingerprint of the empty sorted sequence (`hashFolder []`), an
`absent` TocDescriptor, and an empty FileFingerprint list, never an error. -/
theorem scanCatalogFolder_empty_folder (folder : Folder)
    (h : contentFiles folder.files = []) :
    scanCatalogFolder folder =
      Except.ok
        { folderName := folder.name, fingerprint := hashFolder [],
          toc := TocOutcome.absent, fileFingerprints := [] } := by
  have hfind : findTocFile folder = none := by
    cases hf : findTocFile folder with
    | none => rfl
    | some f =>
      have hmem : f ∈ folder.files := List.mem_of_find?_eq_some hf
      have hpred := List.find?_some hf
      have heq : lowerStr f.path = lowerStr folder.name ++ tocExtension :=
        eq_of_beq hpred
      have hsuf : tocExtension.isSuffixOf (lowerStr f.path) = true := by
        rw [List.isSuffixOf_iff_suffix]
        exact ⟨lowerStr folder.name, heq.symm⟩
      have hext : hasAllowedExt f.path = true := by
        unfold hasAllowedExt
        rw [List.any_eq_true]
        exact ⟨tocExtension, by decide, hsuf⟩
      have hcf : f ∈ contentFiles folder.files := List.mem_filter.mpr ⟨hmem, hext⟩
      rw [h] at hcf
      exact absurd hcf (List.not_mem_nil f)
  unfold scanCatalogFolder folderFileHashes tocRead
  rw [h, hfind]
  rfl

/-- Claim C6 (witness): a concrete folder containing only a disallowed file
scans to the empty-set fingerprint and an absent descriptor. -/
theorem scanCatalogFolder_empty_folder_witness :
    scanCatalogFolder exEmptyFolder =
      Except.ok
        { folderName := exEmptyFolder.name, fingerprint := hashFolder [],
          toc := TocOutcome.absent, fileFingerprints := [] } :=
  scanCatalogFolder_empty_folder exEmptyFolder (by decide)

/-- Claim C7: the self-describing scan returns the non-error `absent`
outcome when the fixed-named sidecar file does not exist, returns the
folder-level `parseError` when the sidecar exists (readable) but is
malformed, and these two outcomes are distinct. -/
theorem scanSelfDescribing_absent_vs_parse_error (folder : Folder) :
    (findSidecarFile folder = none →
      scanSelfDescribing folder = Except.ok SidecarOutcome.absent) ∧
    (∀ f text, findSidecarFile folder = some f → f.data = FileData.readable text →
      parseSidecar text = none →
      scanSelfDescribing folder = Except.error ScanError.parseError) ∧
    (Except.error ScanError.parseError ≠
      (Except.ok SidecarOutcome.absent : Except ScanError SidecarOutcome)) := by
  refine ⟨?_, ?_, by intro hcontra; cases hcontra⟩
  · intro h
    unfold scanSelfDescribing
    rw [h]
  · intro f text hfind hdata hparse
    simp only [scanSelfDescribing, hfind, hdata, hparse]

/-- Claim C7 (witness): a concrete folder without a sidecar gives `absent`;
a concrete folder with a malformed sidecar gives `parseError`. -/
theorem scanSelfDescribing_absent_vs_parse_error_witness :
    scanSelfDescribing exEmptyFolder = Except.ok SidecarOutcome.absent ∧
    scanSelfDescribing exMalformedSidecarFolder = Except.error ScanError.parseError := by
  constructor
  · exact (scanSelfDescribing_absent_vs_parse_error exEmptyFolder).1 rfl
  · exact (scanSelfDescribing_absent_vs_parse_error exMalformedSidecarFolder).2.1
      { path := sidecarFileName, data := FileData.readable ['o', 'o', 'p', 's'], mtime := 0 }
      ['o', 'o', 'p', 's'] rfl rfl rfl

/-- Claim C8: the TocReader returns the explicit absence value (not an
error) whenever the descriptor file is missing, and it errors if and only
if the descriptor file is present but unreadable. -/
theorem tocRead_error_iff_present_unreadable (folder : Folder) :
    (findTocFile folder = none → tocRead folder = Except.ok TocOutcome.absent) ∧
    ((tocRead folder).isOk = false ↔
      ∃ f, findTocFile folder = some f ∧ f.data = FileData.unreadable) := by
  constructor
  · intro h
    unfold tocRead
    rw [h]
  · cases hf : findTocFile folder with
    | none =>
      unfold tocRead
      rw [hf]
      simp [Except.isOk, Except.toBool]
    | some f =>
      cases hd : f.data with
      | readable d =>
        simp only [tocRead, hf, hd, Except.isOk, Except.toBool]
        constructor
        · intro hcontra
          cases hcontra
        · rintro ⟨g, hg, hgd⟩
          injection hg with hg2
          subst hg2
          rw [hd] at hgd
          cases hgd
      | unreadable =>
        simp only [tocRead, hf, hd, Except.isOk, Except.toBool]
        exact ⟨fun _ => ⟨f, rfl, hd⟩, fun _ => trivial⟩

/-- Claim C8 (witness): a concrete folder with no descriptor file does not
throw (absence value), and a concrete folder with an unreadable descriptor
file errors. -/
theorem tocRead_error_iff_present_unreadable_witness :
    tocRead exEmptyFolder = Except.ok TocOutcome.absent ∧
    (tocRead exUnreadableTocFolder).isOk = false := by
  constructor
  · exact (tocRead_error_iff_present_unreadable exEmptyFolder).1 rfl
  · exact (tocRead_error_iff_present_unreadable exUnreadableTocFolder).2.mpr
      ⟨{ path := ['b', 'a', 'z', '.', 't', 'o', 'c'], data := FileData.unreadable,
          mtime := 0 }, rfl, rfl⟩

/-- Claim C9: under the `pLimit(2)` scheduling model used by both scan
handlers, every state reachable from the start of a batch of `n` folder
scans has at most `scanConcurrencyLimit = 2` tasks active, for every batch
size `n` — queued tasks wait until a slot frees (a task can only start while
fewer than the limit are active). -/
theorem pool_active_le_scanConcurrencyLimit (n : Nat) (s : PoolState)
    (h : PoolReachable scanConcurrencyLimit (initPool n) s) :
    s.active ≤ scanConcurrencyLimit := by
  induction h with
  | refl => exact Nat.zero_le _
  | tail hreach hstep ih =>
    cases hstep with
    | start hp ha => exact ha
    | finish ha => exact le_trans (Nat.sub_le _ _) ih

/-- Claim C9 (witness): a concrete reachable state of a 5-folder batch after
one task has started. -/
theorem pool_active_le_scanConcurrencyLimit_witness :
    ({ pending := 4, active := 1, done := 0 } : PoolState).active ≤
      scanConcurrencyLimit :=
  pool_active_le_scanConcurrencyLimit 5 _
    (PoolReachable.tail (PoolReachable.refl _)
      (PoolStep.start (initPool 5) (by decide) (by decide)))

/-- Claim C10: the `PATH_EXISTS_CHANNEL` handler is total and never
rejects — it returns `true` exactly when the `fs.access` probe succeeds and
`false` exactly when the probe fails with any error code (permission errors
included, not only `ENOENT`): every exception is swallowed into `false`. -/
theorem pathExistsHandler_total_spec (probe : Except String Unit) :
    (pathExistsHandler probe = true ↔ probe = Except.ok ()) ∧
    (pathExistsHandler probe = false ↔ ∃ code, probe = Except.error code) := by
  cases probe with
  | ok u =>
    cases u
    constructor
    · simp [pathExistsHandler]
    · constructor
      · intro hcontra
        cases hcontra
      · rintro ⟨c, hc⟩
        cases hc
  | error c =>
    constructor
    · constructor
      · intro hcontra
        cases hcontra
      · intro hc
        cases hc
    · exact ⟨fun _ => ⟨c, rfl⟩, fun _ => rfl⟩

/-- Claim C10 (witness): a permission error (`EACCES`) maps to `false`. -/
theorem pathExistsHandler_total_spec_witness :
    pathExistsHandler (Except.error "EACCES") = false :=
  (pathExistsHandler_total_spec (Except.error "EACCES")).2.mpr ⟨"EACCES", rfl⟩

/-- Claim C1 (witness): the amended equivalence evaluated on the concrete
mixed-outcome batch. -/
theorem curse_scan_batch_ok_iff_all_folders_ok_witness :
    (curseGetScanResults exCurseScan ["addonA", "addonB"]).isOk =
      (["addonA", "addonB"] : List FolderPath).all (fun p => (exCurseScan p).isOk) :=
  curse_scan_batch_ok_iff_all_folders_ok exCurseScan ["addonA", "addonB"]
